import Mathlib

/-!
Verification of the gpu-scheduler repository (`src/gpu-scheduler/scheduler.py`
and `src/gpu-scheduler-check/app.py`) against its natural-language
specification.

Python strings are modelled as lists of characters (`PyStr`), so that the
string-processing functions of the source (`str.strip`, `str.split`,
`str.isdigit`, `int(...)`) become structurally recursive Lean functions that
can be reasoned about by induction.  Machine integers do not occur: Python
integers are unbounded, and are modelled by `Int`/`Nat`.
-/

/-- Python `str`, modelled as a list of characters. -/
abbrev PyStr := List Char

/-- Python `str.strip()` with no argument: remove leading and trailing
whitespace.  (ASCII whitespace model.) -/
def pyStrip (cs : PyStr) : PyStr :=
  ((cs.dropWhile Char.isWhitespace).reverse.dropWhile Char.isWhitespace).reverse

/-- Python `str.split(sep)` for a one-character separator: split on every
occurrence of `sep`; `"".split(sep) == [""]`. -/
def pySplit (sep : Char) : PyStr → List PyStr
  | [] => [[]]
  | c :: rest =>
    let r := pySplit sep rest
    if c = sep then [] :: r
    else
      match r with
      | h :: t => (c :: h) :: t
      | [] => [[c]]

/-- Python `str.split(sep, 1)` when `sep` occurs in the string: the part
before the first `sep` and the part after it. -/
def pySplitOnce (sep : Char) (cs : PyStr) : PyStr × PyStr :=
  (cs.takeWhile (fun c => c ≠ sep), (cs.dropWhile (fun c => c ≠ sep)).drop 1)

/-- Python `str.isdigit()`: non-empty and every character a (decimal ASCII)
digit. -/
def pyIsDigit (cs : PyStr) : Bool :=
  !cs.isEmpty && cs.all Char.isDigit

/-- Decimal value of a digit string. -/
def digitsToNat (cs : PyStr) : Nat :=
  cs.foldl (fun a c => 10 * a + (c.toNat - 48)) 0

/-- Decimal value of a string, provided it consists of digits only. -/
def digitsToNatOpt (cs : PyStr) : Option Nat :=
  if pyIsDigit cs then some (digitsToNat cs) else none

/-- Sign-and-digits step of `pyInt`, on the already-stripped text. -/
def pyIntAux : PyStr → Option Int
  | [] => none
  | c :: rest =>
    if c = '+' then (digitsToNatOpt rest).map Int.ofNat
    else if c = '-' then (digitsToNatOpt rest).map (fun n => -(Int.ofNat n))
    else (digitsToNatOpt (c :: rest)).map Int.ofNat

/-- Python `int(s)` on a `str` argument: strip whitespace, allow one leading
`+` or `-` sign, then require a non-empty run of decimal digits; any other
input raises `ValueError`, modelled as `none`.  (ASCII model; underscore
digit grouping is not modelled — no claim depends on it.) -/
def pyInt (cs : PyStr) : Option Int :=
  pyIntAux (pyStrip cs)

/-- Model of `re.search(r'-(\d+)$', s)`: the run of digits at the end of the
string when it is non-empty and immediately preceded by `'-'`, as a number
(`re.Match.group(1)` fed to `int`). -/
def hyphenDigitSuffix (cs : PyStr) : Option Nat :=
  let rds := cs.reverse.takeWhile Char.isDigit
  let rest := cs.reverse.dropWhile Char.isDigit
  if rds ≠ [] ∧ rest.head? = some '-' then some (digitsToNat rds.reverse) else none

namespace GPUScheduler

/-- The scheduler's mapping-entry payload: `(node_name, cuda_device_list)`. -/
abbrev Entry := PyStr × List Int

/-- Python `dict` insertion `mapping[k] = v`: replace the binding when the
key is present, append it otherwise (insertion order preserved). -/
def insertEntry (m : List (Int × Entry)) (k : Int) (v : Entry) : List (Int × Entry) :=
  if m.any (fun p => p.1 == k) then
    m.map (fun p => if p.1 == k then (k, v) else p)
  else m ++ [(k, v)]

/-- Python `dict` lookup `mapping[k]` / `k in mapping`. -/
def lookupEntry (m : List (Int × Entry)) (k : Int) : Option Entry :=
  (m.find? (fun p => p.1 == k)).map (fun p => p.2)

/-- The CUDA-device list of one mapping line
(`cuda_devices` accumulation in `parse_gpu_mapping`): if the text after the
first `':'` strips to empty the list is empty, otherwise split it on `','`
and keep the comma tokens that `int(...)` accepts, dropping the rest. -/
def processDevices (cuda_devices_str : PyStr) : List Int :=
  if pyStrip cuda_devices_str = [] then []
  else (pySplit ',' (pyStrip cuda_devices_str)).filterMap (fun d => pyInt (pyStrip d))

/-- The line loop of `GPUScheduler.parse_gpu_mapping`.  A blank line or a
line without `'='` is skipped (`continue`); a line whose index field is not
accepted by `int(...)` raises `ValueError`, which the `try/except`
surrounding the whole loop catches, so the mapping built so far is returned
and the remaining lines are not processed; a line without `':'` after the
`'='` is skipped; otherwise the entry is stored under its index. -/
def parseLines : List PyStr → List (Int × Entry) → List (Int × Entry)
  | [], m => m
  | l :: rest, m =>
    if pyStrip l = [] ∨ (pyStrip l).contains '=' = false then parseLines rest m
    else
      match pyInt (pyStrip (pySplitOnce '=' (pyStrip l)).1) with
      | none => m
      | some pod_index =>
        if (pySplitOnce '=' (pyStrip l)).2.contains ':' = false then parseLines rest m
        else
          parseLines rest (insertEntry m pod_index
            (pyStrip (pySplitOnce ':' (pySplitOnce '=' (pyStrip l)).2).1,
             processDevices (pySplitOnce ':' (pySplitOnce '=' (pyStrip l)).2).2))

/-- Function `GPUScheduler.parse_gpu_mapping`: empty annotation yields the empty
mapping; otherwise strip the text, split it into lines and process them. -/
def parse_gpu_mapping (annotation_value : PyStr) : List (Int × Entry) :=
  if annotation_value = [] then []
  else parseLines (pySplit '\n' (pyStrip annotation_value)) []

end GPUScheduler

namespace GPUScheduler

/-- Function `GPUScheduler.get_pod_index_from_name`: when the name contains `'-'`,
scan the `split('-')` tokens from the end and return the first one accepted
by `isdigit`, as `int(...)`; then try the regex `-(\d+)$`; finally, if the
whole name is digits, return its value; otherwise `None`. -/
def get_pod_index_from_name (pod_name : PyStr) : Option Int :=
  match (if pod_name.contains '-' then
           (pySplit '-' pod_name).reverse.findSome?
             (fun part => if pyIsDigit part then pyInt part else none)
         else none) with
  | some i => some i
  | none =>
    match hyphenDigitSuffix pod_name with
    | some n => some (n : Int)
    | none => if pyIsDigit pod_name then pyInt pod_name else none

/-- Modelled from the spec and claim C6's wording of the resolver heuristic:
(1) if the name contains `'-'`, split on `'-'` and, scanning tokens from the
end, return the first all-digit token as an integer; (2) otherwise, if the
entire name is numeric, return its integer value; (3) otherwise unresolved.
To be compared with `get_pod_index_from_name` above, which is translated
from the source (and additionally consults the regex `-(\d+)$`). -/
def resolveSpec (pod_name : PyStr) : Option Int :=
  if pod_name.contains '-' then
    (pySplit '-' pod_name).reverse.findSome?
      (fun part => if pyIsDigit part then pyInt part else none)
  else if pyIsDigit pod_name then pyInt pod_name else none

/-- A node status condition (`V1NodeCondition`): its `type` and `status`
strings. -/
structure NodeCondition where
  ctype : PyStr
  status : PyStr
deriving DecidableEq, Repr

/-- A cluster node (`V1Node`) as consumed by `validate_node_exists`: its
metadata name and its status conditions; `none` models a node whose
`status` or `status.conditions` is `None`. -/
structure Node where
  name : PyStr
  conditions : Option (List NodeCondition)
deriving DecidableEq, Repr

/-- A `kubernetes.client.rest.ApiException`, carrying only a message. -/
structure ApiException where
  msg : PyStr
deriving DecidableEq, Repr

/-- The per-node readiness check inside `validate_node_exists`: when
`node.status and node.status.conditions` is truthy (conditions present and
non-empty), scan the conditions for one with `type == "Ready"` and
`status == "True"`; otherwise the node is reported not ready. -/
def nodeReadyCheck (node : Node) : Bool :=
  match node.conditions with
  | some conds =>
    if conds ≠ [] then
      conds.any (fun c => c.ctype == "Ready".data && c.status == "True".data)
    else false
  | none => false

/-- The node-list scan of `validate_node_exists`: the first node whose
metadata name matches decides the answer (`return` inside the loop);
a missing node yields `false`. -/
def findNodeReady : List Node → PyStr → Bool
  | [], _ => false
  | node :: rest, node_name =>
    if node.name == node_name then nodeReadyCheck node else findNodeReady rest node_name

/-- Function `GPUScheduler.validate_node_exists`: list the nodes via the control
plane (the `Except` argument is the outcome of `self.v1.list_node()`); an
`ApiException` is caught and reported as `false`. -/
def validate_node_exists (nodesRes : Except ApiException (List Node)) (node_name : PyStr) : Bool :=
  match nodesRes with
  | .error _ => false
  | .ok nodes => findNodeReady nodes node_name

/-- A container (`V1Container`) reduced to what the scheduler can touch:
its environment variables as `(name, value)` pairs. -/
structure Container where
  env : List (PyStr × PyStr)
deriving DecidableEq, Repr

/-- A pod (`V1Pod`) as consumed by `schedule_pod`. -/
structure Pod where
  name : PyStr
  namespaceName : PyStr
  annotations : Option (List (PyStr × PyStr))
  schedulerName : Option PyStr
  containers : List Container
deriving DecidableEq, Repr

/-- The `V1Binding` submitted by `schedule_pod`: pod name, its namespace,
and the target node referenced by the binding. -/
structure BindingRequest where
  podName : PyStr
  podNamespace : PyStr
  targetNodeName : PyStr
deriving DecidableEq, Repr

/-- A control-plane mutation.  `bind` is the pod-binding subresource call
`create_namespaced_pod_binding`; `patchContainerSpec` is the (forbidden,
never issued) mutation of a container environment variable on an existing
pod, included so that the frame property of claim C8 is expressible. -/
inductive Effect
  | bind (request : BindingRequest)
  | patchContainerSpec (podName : PyStr) (envName envValue : PyStr)
deriving DecidableEq, Repr

/-- The outcome of one `schedule_pod` call, one per exit point of the
source function. -/
inductive Outcome
  | noOp | mappingEmpty | indexUnresolved | mappingMiss | nodeUnavailable | bindFailed | success
deriving DecidableEq, Repr

/-- The control-plane responses a single `schedule_pod` call can observe:
the node-list result, and the response to a binding submission. -/
structure ClusterEnv where
  nodesRes : Except ApiException (List Node)
  bindResult : BindingRequest → Except ApiException Unit

/-- Result of one `schedule_pod` call: which exit was taken, the boolean the
Python function returns, the control-plane mutations submitted, and the pod
object as the function leaves it. -/
structure ScheduleResult where
  outcome : Outcome
  returned : Bool
  effects : List Effect
  pod : Pod
deriving Repr

/-- The fixed annotation key `self.annotation_key`. -/
def annotation_key : PyStr := "gpu-scheduling-map".data

/-- Python `dict` lookup in the pod's annotation dictionary. -/
def lookupAnnotation (l : List (PyStr × PyStr)) (k : PyStr) : Option PyStr :=
  (l.find? (fun p => p.1 == k)).map (fun p => p.2)

/-- Python `','.join(...)` over rendered strings. -/
def joinComma (parts : List PyStr) : PyStr :=
  List.intercalate [','] parts

/-- Function `GPUScheduler.inject_cuda_env_var` (defined in the source but never
called by `schedule_pod`): render the device list as a comma-joined string
and, in every container, drop any existing `CUDA_VISIBLE_DEVICES` variable
and append the new one. -/
def inject_cuda_env_var (pod : Pod) (cuda_devices : List Int) : Pod :=
  let cuda_devices_str : PyStr :=
    if cuda_devices ≠ [] then joinComma (cuda_devices.map (fun d => (toString d).data)) else []
  { pod with containers := pod.containers.map (fun c =>
      { c with env :=
          (c.env.filter (fun e => e.1 != "CUDA_VISIBLE_DEVICES".data)) ++
            [("CUDA_VISIBLE_DEVICES".data, cuda_devices_str)] }) }

/-- Function `GPUScheduler.schedule_pod`, with its control-plane interactions made
explicit.  Branches in source order: missing annotation → no-op; empty
parsed mapping → abandon; unresolved pod index → abandon; no entry for the
index → abandon; `validate_node_exists` false → abandon; otherwise build the
binding and submit it, an `ApiException` from the submission being caught
by the function's `except` clauses (return `False`). -/
def schedule_pod (cluster : ClusterEnv) (pod : Pod) : ScheduleResult :=
  match lookupAnnotation (pod.annotations.getD []) annotation_key with
  | none => ⟨.noOp, false, [], pod⟩
  | some annotation_value =>
    let gpu_mapping := parse_gpu_mapping annotation_value
    if gpu_mapping = [] then ⟨.mappingEmpty, false, [], pod⟩
    else
      match get_pod_index_from_name pod.name with
      | none => ⟨.indexUnresolved, false, [], pod⟩
      | some pod_index =>
        match lookupEntry gpu_mapping pod_index with
        | none => ⟨.mappingMiss, false, [], pod⟩
        | some entry =>
          if validate_node_exists cluster.nodesRes entry.1 then
            let binding : BindingRequest := ⟨pod.name, pod.namespaceName, entry.1⟩
            match cluster.bindResult binding with
            | .error _ => ⟨.bindFailed, false, [.bind binding], pod⟩
            | .ok _ => ⟨.success, true, [.bind binding], pod⟩
          else ⟨.nodeUnavailable, false, [], pod⟩

/-- Outcome of one watch-stream session in `watch_unscheduled_pods`: the
stream either ends normally when its 60-second timeout elapses, or raises. -/
inductive SessionResult
  | timeout
  | fault (msg : PyStr)
deriving DecidableEq, Repr

/-- Observable step of the watch loop. -/
inductive LoopAction
  | logInfo (msg : PyStr)
  | logError (msg : PyStr)
  | sleepSeconds (n : Nat)
  | subscribe
deriving DecidableEq, Repr

/-- The fixed info message logged at the top of every loop iteration. -/
def watchingMsg : PyStr := "Watching for unscheduled pods...".data

/-- The fixed info message logged before the fixed-delay sleep. -/
def restartMsg : PyStr := "Restarting watch in 5 seconds...".data

/-- What `watch_unscheduled_pods` does after one stream session, before the
next iteration of `while True`: a normal stream end (timeout) adds nothing;
an exception is caught, logged as an error, and followed by the fixed
5-second sleep. -/
def afterSession : SessionResult → List LoopAction
  | .timeout => []
  | .fault msg => [.logError msg, .logInfo restartMsg, .sleepSeconds 5]

/-- Function `GPUScheduler.watch_unscheduled_pods` driven by a finite trace of
session outcomes: each iteration logs, subscribes to the stream, and then
performs the session's aftermath; the `while True` loop then continues with
the next session unconditionally. -/
def watch_unscheduled_pods : List SessionResult → List LoopAction
  | [] => []
  | r :: rest =>
    .logInfo watchingMsg :: .subscribe :: (afterSession r ++ watch_unscheduled_pods rest)

end GPUScheduler

namespace CheckApp

/-- Function `get_pod_index_from_name` of the sidecar `app.py`: only the regex
`-(\d+)$` is consulted, and on no match the function logs a warning and
returns `0`. -/
def get_pod_index_from_name (pod_name : PyStr) : Int :=
  match hyphenDigitSuffix pod_name with
  | some n => (n : Int)
  | none => 0

end CheckApp

namespace GPUScheduler

/-- The spec's end-to-end scenario pod: `worker-2`, scheduler name unset,
carrying the annotation `2=nodeC:4,5`. -/
def worker2 : Pod :=
  ⟨"worker-2".data, "default".data,
   some [(annotation_key, "2=nodeC:4,5".data)], none, [⟨[]⟩]⟩

/-- Node `nodeC` reporting `Ready=True`. -/
def nodeCReady : Node := ⟨"nodeC".data, some [⟨"Ready".data, "True".data⟩]⟩

/-- Node `nodeC` reporting `Ready=False`. -/
def nodeCNotReady : Node := ⟨"nodeC".data, some [⟨"Ready".data, "False".data⟩]⟩

/-- Cluster where `nodeC` is ready and binding succeeds. -/
def clusterReady : ClusterEnv := ⟨.ok [nodeCReady], fun _ => .ok ()⟩

/-- Cluster where `nodeC` reports `Ready=False`. -/
def clusterNotReady : ClusterEnv := ⟨.ok [nodeCNotReady], fun _ => .ok ()⟩

end GPUScheduler

example : (GPUScheduler.schedule_pod GPUScheduler.clusterReady GPUScheduler.worker2).outcome =
    GPUScheduler.Outcome.success := by decide
example : (GPUScheduler.schedule_pod GPUScheduler.clusterReady GPUScheduler.worker2).effects =
    [.bind ⟨"worker-2".data, "default".data, "nodeC".data⟩] := by decide
example : (GPUScheduler.schedule_pod GPUScheduler.clusterNotReady GPUScheduler.worker2).outcome =
    GPUScheduler.Outcome.nodeUnavailable := by decide
example : (GPUScheduler.schedule_pod GPUScheduler.clusterNotReady GPUScheduler.worker2).effects =
    [] := by decide

example : GPUScheduler.get_pod_index_from_name ("gpu-scheduler-check-3").data = some 3 := by decide
example : GPUScheduler.get_pod_index_from_name ("standalone").data = none := by decide
example : GPUScheduler.get_pod_index_from_name ("7").data = some 7 := by decide
example : GPUScheduler.get_pod_index_from_name ("data-3-backup").data = some 3 := by decide
example : CheckApp.get_pod_index_from_name ("7").data = 0 := by decide
example : CheckApp.get_pod_index_from_name ("worker-2").data = 2 := by decide

example : GPUScheduler.parse_gpu_mapping ("0=node1:0,1\n1=node2:2").data =
    [(0, ("node1".data, [0, 1])), (1, ("node2".data, [2]))] := by decide

example : GPUScheduler.parse_gpu_mapping ("0=nodeA:0\n0=nodeB:1").data =
    [(0, ("nodeB".data, [1]))] := by decide

example : GPUScheduler.parse_gpu_mapping ("garbage\n1=node2:5").data =
    [(1, ("node2".data, [5]))] := by decide

example : GPUScheduler.parse_gpu_mapping ("x=nodeA:0\n1=node2:5").data = [] := by decide

example : GPUScheduler.parse_gpu_mapping ("-1=n:-2").data =
    [(-1, ("n".data, [-2]))] := by decide

/-! ## Structural lemmas about one line of `parse_gpu_mapping` -/

namespace GPUScheduler

/-- Whether processing this line raises `ValueError` at `int(pod_index_str)`
(the only statement of the loop body that can raise): the stripped line is
non-blank, contains `'='`, and its index field is rejected by `int(...)`. -/
def lineAborts (l : PyStr) : Bool :=
  !(pyStrip l).isEmpty && (pyStrip l).contains '=' &&
    (pyInt (pyStrip (pySplitOnce '=' (pyStrip l)).1)).isNone

/-- The entry this line contributes when it is neither skipped nor raising. -/
def lineEntry (l : PyStr) : Option (Int × Entry) :=
  if pyStrip l = [] ∨ (pyStrip l).contains '=' = false then none
  else
    match pyInt (pyStrip (pySplitOnce '=' (pyStrip l)).1) with
    | none => none
    | some pod_index =>
      if (pySplitOnce '=' (pyStrip l)).2.contains ':' = false then none
      else some (pod_index,
        (pyStrip (pySplitOnce ':' (pySplitOnce '=' (pyStrip l)).2).1,
         processDevices (pySplitOnce ':' (pySplitOnce '=' (pyStrip l)).2).2))

/-- Effect of one non-raising line on the mapping under construction. -/
def lineUpdate (l : PyStr) (m : List (Int × Entry)) : List (Int × Entry) :=
  match lineEntry l with
  | none => m
  | some (k, v) => insertEntry m k v

theorem parseLines_cons_abort (l : PyStr) (rest : List PyStr) (m : List (Int × Entry))
    (h : lineAborts l = true) : parseLines (l :: rest) m = m := by
  unfold lineAborts at h
  rw [Bool.and_eq_true, Bool.and_eq_true] at h
  obtain ⟨⟨h1, h2⟩, h3⟩ := h
  rw [Bool.not_eq_true'] at h1
  have h1' : pyStrip l ≠ [] := by
    intro he
    rw [he] at h1
    exact absurd h1 (by decide)
  have hcond : ¬ (pyStrip l = [] ∨ (pyStrip l).contains '=' = false) := by
    rintro (hA | hB)
    · exact h1' hA
    · rw [h2] at hB; exact absurd hB (by decide)
  rw [Option.isNone_iff_eq_none] at h3
  conv_lhs => unfold parseLines
  rw [if_neg hcond, h3]

theorem parseLines_cons_no_abort (l : PyStr) (rest : List PyStr) (m : List (Int × Entry))
    (h : lineAborts l = false) : parseLines (l :: rest) m = parseLines rest (lineUpdate l m) := by
  by_cases hskip : pyStrip l = [] ∨ (pyStrip l).contains '=' = false
  · have hupd : lineUpdate l m = m := by
      unfold lineUpdate lineEntry
      rw [if_pos hskip]
    conv_lhs => unfold parseLines
    rw [if_pos hskip, hupd]
  · unfold lineAborts at h
    rw [Bool.and_eq_false_iff] at h
    have hne : pyStrip l ≠ [] := fun he => hskip (Or.inl he)
    have hcontains : (pyStrip l).contains '=' = true := by
      cases hc : (pyStrip l).contains '=' with
      | true => rfl
      | false => exact absurd (Or.inr hc) hskip
    cases hidx : pyInt (pyStrip (pySplitOnce '=' (pyStrip l)).1) with
    | none =>
      exfalso
      rcases h with h | h
      · rw [Bool.and_eq_false_iff] at h
        rcases h with h | h
        · rw [Bool.not_eq_false'] at h
          rw [List.isEmpty_iff] at h
          exact absurd h hne
        · rw [hcontains] at h; exact absurd h (by decide)
      · rw [hidx] at h; exact absurd h (by decide)
    | some pod_index =>
      by_cases hcolon : (pySplitOnce '=' (pyStrip l)).2.contains ':' = false
      · have hupd : lineUpdate l m = m := by
          unfold lineUpdate lineEntry
          rw [if_neg hskip, hidx]
          show (match (if (pySplitOnce '=' (pyStrip l)).2.contains ':' = false then none
                       else some (pod_index,
                         (pyStrip (pySplitOnce ':' (pySplitOnce '=' (pyStrip l)).2).1,
                          processDevices (pySplitOnce ':' (pySplitOnce '=' (pyStrip l)).2).2))) with
                | none => m
                | some (k, v) => insertEntry m k v) = m
          rw [if_pos hcolon]
        conv_lhs => unfold parseLines
        rw [if_neg hskip, hidx]
        show (if (pySplitOnce '=' (pyStrip l)).2.contains ':' = false then parseLines rest m
              else parseLines rest (insertEntry m pod_index
                (pyStrip (pySplitOnce ':' (pySplitOnce '=' (pyStrip l)).2).1,
                 processDevices (pySplitOnce ':' (pySplitOnce '=' (pyStrip l)).2).2))) =
          parseLines rest (lineUpdate l m)
        rw [if_pos hcolon, hupd]
      · have hupd : lineUpdate l m = insertEntry m pod_index
            (pyStrip (pySplitOnce ':' (pySplitOnce '=' (pyStrip l)).2).1,
             processDevices (pySplitOnce ':' (pySplitOnce '=' (pyStrip l)).2).2) := by
          unfold lineUpdate lineEntry
          rw [if_neg hskip, hidx]
          show (match (if (pySplitOnce '=' (pyStrip l)).2.contains ':' = false then none
                       else some (pod_index,
                         (pyStrip (pySplitOnce ':' (pySplitOnce '=' (pyStrip l)).2).1,
                          processDevices (pySplitOnce ':' (pySplitOnce '=' (pyStrip l)).2).2))) with
                | none => m
                | some (k, v) => insertEntry m k v) =
            insertEntry m pod_index
              (pyStrip (pySplitOnce ':' (pySplitOnce '=' (pyStrip l)).2).1,
               processDevices (pySplitOnce ':' (pySplitOnce '=' (pyStrip l)).2).2)
          rw [if_neg hcolon]
        conv_lhs => unfold parseLines
        rw [if_neg hskip, hidx]
        show (if (pySplitOnce '=' (pyStrip l)).2.contains ':' = false then parseLines rest m
              else parseLines rest (insertEntry m pod_index
                (pyStrip (pySplitOnce ':' (pySplitOnce '=' (pyStrip l)).2).1,
                 processDevices (pySplitOnce ':' (pySplitOnce '=' (pyStrip l)).2).2))) =
          parseLines rest (lineUpdate l m)
        rw [if_neg hcolon, hupd]

theorem lineAborts_eq_false_of_lineEntry {l : PyStr} {x : Int × Entry}
    (h : lineEntry l = some x) : lineAborts l = false := by
  unfold lineEntry at h
  by_cases hskip : pyStrip l = [] ∨ (pyStrip l).contains '=' = false
  · rw [if_pos hskip] at h
    exact absurd h (by simp)
  · rw [if_neg hskip] at h
    cases hidx : pyInt (pyStrip (pySplitOnce '=' (pyStrip l)).1) with
    | none => rw [hidx] at h; exact absurd h (by simp)
    | some i =>
      unfold lineAborts
      rw [hidx]
      simp [Option.isNone]

theorem find?_map_replace (m : List (Int × Entry)) (k : Int) (v : Entry)
    (h : m.any (fun q => q.1 == k) = true) :
    (m.map (fun q => if q.1 == k then (k, v) else q)).find? (fun q => q.1 == k) = some (k, v) := by
  induction m with
  | nil => simp at h
  | cons p rest ih =>
    rw [List.map_cons]
    cases hp : (p.1 == k) with
    | true =>
      have hred : (if true = true then (k, v) else p) = (k, v) := rfl
      rw [hred]
      exact List.find?_cons_of_pos _ (by simp)
    | false =>
      have hred : (if false = true then (k, v) else p) = p := rfl
      rw [hred,
          List.find?_cons_of_neg (rest.map (fun q => if q.1 == k then (k, v) else q))
            (by simp [hp])]
      apply ih
      rw [List.any_cons] at h
      simpa [hp] using h

theorem lookupEntry_insertEntry (m : List (Int × Entry)) (k : Int) (v : Entry) :
    lookupEntry (insertEntry m k v) k = some v := by
  unfold insertEntry lookupEntry
  by_cases h : m.any (fun q => q.1 == k) = true
  · rw [if_pos h, find?_map_replace m k v h]
    rfl
  · rw [if_neg h, List.find?_append]
    have hm : m.find? (fun q => q.1 == k) = none := by
      rw [List.find?_eq_none]
      intro x hx hpx
      exact h (List.any_eq_true.mpr ⟨x, hx, hpx⟩)
    rw [hm, List.find?_cons_of_pos _ (by simp)]
    rfl

theorem mem_insertEntry {m : List (Int × Entry)} {k : Int} {v : Entry} {p : Int × Entry}
    (h : p ∈ insertEntry m k v) : p ∈ m ∨ p = (k, v) := by
  unfold insertEntry at h
  by_cases ha : m.any (fun q => q.1 == k) = true
  · rw [if_pos ha, List.mem_map] at h
    obtain ⟨q, hq, hqe⟩ := h
    by_cases hqk : (q.1 == k) = true
    · rw [if_pos hqk] at hqe
      right; exact hqe.symm
    · rw [if_neg hqk] at hqe
      left; exact hqe ▸ hq
  · rw [if_neg ha, List.mem_append] at h
    rcases h with h | h
    · left; exact h
    · right; simpa using h

theorem lookupEntry_mem {m : List (Int × Entry)} {k : Int} {e : Entry}
    (h : lookupEntry m k = some e) : (k, e) ∈ m := by
  unfold lookupEntry at h
  cases hf : m.find? (fun p => p.1 == k) with
  | none => rw [hf] at h; exact absurd h (by simp)
  | some a =>
    rw [hf] at h
    have hpred := List.find?_some hf
    have hmem : a ∈ m := List.mem_of_find?_eq_some hf
    have h2 : a.2 = e := by simpa using h
    have h1 : a.1 = k := by simpa using hpred
    have : a = (k, e) := by
      cases a
      simp_all
    rwa [this] at hmem

end GPUScheduler

/-- Claim C1, counterexample.  The claim predicts that in
`"x=nodeA:0\n1=node2:5"` only the malformed first line is skipped and the
valid second line still contributes the entry `1 ↦ (node2, [5])`.  In the
source, the `int(pod_index_str)` failure raises `ValueError`, which is
caught by the `try/except` wrapped around the whole line loop, so the
second line is never processed and index `1` is absent. -/
theorem claim_C1_counterexample :
    ¬ GPUScheduler.lookupEntry
        (GPUScheduler.parse_gpu_mapping ("x=nodeA:0\n1=node2:5").data) 1 =
      some ("node2".data, [5]) := by decide

/-- Claim C1, amended: a non-blank line containing `'='` whose index field
does not parse as an integer aborts the parse — the entries of the valid
lines before it are returned, that line and all later lines are dropped,
and `parse` never raises to its caller (it is a total function).
Concretely, `parse("0=nodeA:1\nx=node:0\n1=node2:5")` is `{0:(nodeA,[1])}`. -/
theorem claim_C1_amended :
    (∀ (xs : List PyStr) (l : PyStr) (ys : List PyStr)
        (m : List (Int × GPUScheduler.Entry)),
        (∀ x ∈ xs, GPUScheduler.lineAborts x = false) → GPUScheduler.lineAborts l = true →
        GPUScheduler.parseLines (xs ++ l :: ys) m = GPUScheduler.parseLines xs m) ∧
    GPUScheduler.parse_gpu_mapping ("0=nodeA:1\nx=node:0\n1=node2:5").data =
      [(0, ("nodeA".data, [1]))] := by
  constructor
  · intro xs l ys m hxs hl
    induction xs generalizing m with
    | nil =>
      rw [List.nil_append, GPUScheduler.parseLines_cons_abort _ _ _ hl]
      rfl
    | cons x xs ih =>
      have hx : GPUScheduler.lineAborts x = false := hxs x (by simp)
      rw [List.cons_append, GPUScheduler.parseLines_cons_no_abort _ _ _ hx,
          GPUScheduler.parseLines_cons_no_abort _ _ _ hx]
      exact ih _ (fun y hy => hxs y (List.mem_cons_of_mem x hy))
  · decide

/-- Witness for the amended claim C1 at a concrete input: lines
`["0=nodeA:1", "x=node:0", "1=node2:5"]` parse to the same mapping as
`["0=nodeA:1"]` alone. -/
theorem claim_C1_witness :
    GPUScheduler.parseLines (["0=nodeA:1".data] ++ "x=node:0".data :: ["1=node2:5".data]) [] =
      GPUScheduler.parseLines ["0=nodeA:1".data] [] :=
  claim_C1_amended.1 ["0=nodeA:1".data] "x=node:0".data ["1=node2:5".data] []
    (by decide) (by decide)

/-- Claim C7: last-line-wins.  For any sequence of non-raising lines
followed by a final line that contributes the entry `(k, v)`, looking up
`k` in the parsed mapping yields `v` — the later line overwrites any
earlier binding of `k`; and concretely
`parse("0=nodeA:0\n0=nodeB:1") = {0:(nodeB,[1])}`. -/
theorem claim_C7 :
    (∀ (xs : List PyStr) (l : PyStr) (m : List (Int × GPUScheduler.Entry)) (k : Int)
        (v : GPUScheduler.Entry),
        (∀ x ∈ xs, GPUScheduler.lineAborts x = false) →
        GPUScheduler.lineEntry l = some (k, v) →
        GPUScheduler.lookupEntry (GPUScheduler.parseLines (xs ++ [l]) m) k = some v) ∧
    GPUScheduler.parse_gpu_mapping ("0=nodeA:0\n0=nodeB:1").data =
      [(0, ("nodeB".data, [1]))] := by
  constructor
  · intro xs l m k v hxs hl
    have habort : GPUScheduler.lineAborts l = false :=
      GPUScheduler.lineAborts_eq_false_of_lineEntry hl
    induction xs generalizing m with
    | nil =>
      rw [List.nil_append, GPUScheduler.parseLines_cons_no_abort _ _ _ habort]
      show GPUScheduler.lookupEntry (GPUScheduler.lineUpdate l m) k = some v
      unfold GPUScheduler.lineUpdate
      rw [hl]
      exact GPUScheduler.lookupEntry_insertEntry m k v
    | cons x xs ih =>
      have hx : GPUScheduler.lineAborts x = false := hxs x (by simp)
      rw [List.cons_append, GPUScheduler.parseLines_cons_no_abort _ _ _ hx]
      exact ih _ (fun y hy => hxs y (List.mem_cons_of_mem x hy))
  · decide

/-- Witness for claim C7 at a concrete input: the repeated index `0` ends
up bound to the entry of the later line. -/
theorem claim_C7_witness :
    GPUScheduler.lookupEntry
        (GPUScheduler.parseLines (["0=nodeA:0".data] ++ ["0=nodeB:1".data]) []) 0 =
      some ("nodeB".data, [1]) :=
  claim_C7.1 ["0=nodeA:0".data] "0=nodeB:1".data [] 0 ("nodeB".data, [1])
    (by decide) (by decide)

/-- Claim C3: the per-pod decision function is total.  Every call to
`schedule_pod` returns exactly one outcome among no-op, the five abandon
reasons, and success (it is a total Lean function, so no unhandled fault
reaches the caller — the source's `except` clauses catch `ApiException`
and `Exception`); and the boolean the Python function returns is `True`
exactly on the success exit. -/
theorem claim_C3 : ∀ (cluster : GPUScheduler.ClusterEnv) (pod : GPUScheduler.Pod),
    ((GPUScheduler.schedule_pod cluster pod).outcome = GPUScheduler.Outcome.noOp ∨
     (GPUScheduler.schedule_pod cluster pod).outcome = GPUScheduler.Outcome.mappingEmpty ∨
     (GPUScheduler.schedule_pod cluster pod).outcome = GPUScheduler.Outcome.indexUnresolved ∨
     (GPUScheduler.schedule_pod cluster pod).outcome = GPUScheduler.Outcome.mappingMiss ∨
     (GPUScheduler.schedule_pod cluster pod).outcome = GPUScheduler.Outcome.nodeUnavailable ∨
     (GPUScheduler.schedule_pod cluster pod).outcome = GPUScheduler.Outcome.bindFailed ∨
     (GPUScheduler.schedule_pod cluster pod).outcome = GPUScheduler.Outcome.success) ∧
    ((GPUScheduler.schedule_pod cluster pod).returned = true ↔
      (GPUScheduler.schedule_pod cluster pod).outcome = GPUScheduler.Outcome.success) := by
  intro cluster pod
  simp only [GPUScheduler.schedule_pod]
  repeat' split
  all_goals simp

/-- Claim C5: a `BindingRequest` is constructed and submitted only after
the readiness check for its target node returned `true` — every run either
submits nothing or submits exactly one binding, for the pod itself, whose
target node passed `validate_node_exists`; and in the spec's end-to-end
scenario where `nodeC` reports `Ready=False`, zero binding requests are
submitted and the run abandons with `NodeUnavailable`. -/
theorem claim_C5 :
    (∀ (cluster : GPUScheduler.ClusterEnv) (pod : GPUScheduler.Pod),
        (GPUScheduler.schedule_pod cluster pod).effects = [] ∨
        ∃ node_name,
          (GPUScheduler.schedule_pod cluster pod).effects =
            [GPUScheduler.Effect.bind ⟨pod.name, pod.namespaceName, node_name⟩] ∧
          GPUScheduler.validate_node_exists cluster.nodesRes node_name = true) ∧
    ((GPUScheduler.schedule_pod GPUScheduler.clusterNotReady GPUScheduler.worker2).effects = [] ∧
     (GPUScheduler.schedule_pod GPUScheduler.clusterNotReady GPUScheduler.worker2).outcome =
       GPUScheduler.Outcome.nodeUnavailable) := by
  refine ⟨?_, by decide, by decide⟩
  intro cluster pod
  simp only [GPUScheduler.schedule_pod]
  repeat' split
  all_goals simp_all

/-- Claim C8 (frame property): `schedule_pod` leaves the pod object — in
particular its container spec and container environment variables —
untouched, and its only control-plane mutation is at most one pod-to-node
binding: no `patchContainerSpec` effect is ever emitted. -/
theorem claim_C8 : ∀ (cluster : GPUScheduler.ClusterEnv) (pod : GPUScheduler.Pod),
    (GPUScheduler.schedule_pod cluster pod).pod = pod ∧
    (GPUScheduler.schedule_pod cluster pod).pod.containers = pod.containers ∧
    ((GPUScheduler.schedule_pod cluster pod).effects = [] ∨
      ∃ request, (GPUScheduler.schedule_pod cluster pod).effects =
        [GPUScheduler.Effect.bind request]) := by
  intro cluster pod
  simp only [GPUScheduler.schedule_pod]
  repeat' split
  all_goals simp

/-! ## Character-level lemmas about the Python string model -/

theorem digit_not_ws {c : Char} (h : c.isDigit = true) : c.isWhitespace = false := by
  by_contra hw
  rw [Bool.not_eq_false] at hw
  simp [Char.isWhitespace] at hw
  rcases hw with ((h1 | h1) | h1) | h1 <;> (subst h1; exact absurd h (by decide))

theorem digit_ne_hyphen {c : Char} (h : c.isDigit = true) : c ≠ '-' := by
  rintro rfl; exact absurd h (by decide)

theorem digit_ne_plus {c : Char} (h : c.isDigit = true) : c ≠ '+' := by
  rintro rfl; exact absurd h (by decide)

theorem mem_pyStrip {c : Char} {l : PyStr} (h : c ∈ pyStrip l) : c ∈ l := by
  unfold pyStrip at h
  rw [List.mem_reverse] at h
  have h2 := (List.dropWhile_sublist _).subset h
  rw [List.mem_reverse] at h2
  exact (List.dropWhile_sublist _).subset h2

theorem pySplit_ne_nil (sep : Char) (cs : PyStr) : pySplit sep cs ≠ [] := by
  cases cs with
  | nil => simp [pySplit]
  | cons x rest =>
    simp only [pySplit]
    by_cases hx : x = sep
    · rw [if_pos hx]; simp
    · rw [if_neg hx]
      cases pySplit sep rest <;> simp

theorem mem_pySplit {sep : Char} :
    ∀ {cs t : PyStr}, t ∈ pySplit sep cs → ∀ {c : Char}, c ∈ t → c ∈ cs := by
  intro cs
  induction cs with
  | nil =>
    intro t ht c hc
    simp [pySplit] at ht
    subst ht
    simp at hc
  | cons x rest ih =>
    intro t ht c hc
    simp only [pySplit] at ht
    by_cases hx : x = sep
    · rw [if_pos hx] at ht
      rcases List.mem_cons.mp ht with h | h
      · subst h; simp at hc
      · exact List.mem_cons_of_mem _ (ih h hc)
    · rw [if_neg hx] at ht
      cases hr : pySplit sep rest with
      | nil => exact absurd hr (pySplit_ne_nil sep rest)
      | cons h0 t0 =>
        rw [hr] at ht
        rcases List.mem_cons.mp ht with h | h
        · subst h
          rcases List.mem_cons.mp hc with h | h
          · subst h; exact List.mem_cons_self _ _
          · exact List.mem_cons_of_mem _ (ih (by rw [hr]; exact List.mem_cons_self _ _) h)
        · exact List.mem_cons_of_mem _ (ih (by rw [hr]; exact List.mem_cons_of_mem _ h) hc)

theorem mem_pySplitOnce_fst {sep c : Char} {cs : PyStr}
    (h : c ∈ (pySplitOnce sep cs).1) : c ∈ cs :=
  (List.takeWhile_sublist _).subset h

theorem mem_pySplitOnce_snd {sep c : Char} {cs : PyStr}
    (h : c ∈ (pySplitOnce sep cs).2) : c ∈ cs :=
  (List.dropWhile_sublist _).subset (List.drop_subset 1 _ h)

theorem pyIsDigit_all {cs : PyStr} (h : pyIsDigit cs = true) :
    cs ≠ [] ∧ ∀ c ∈ cs, c.isDigit = true := by
  unfold pyIsDigit at h
  rw [Bool.and_eq_true] at h
  obtain ⟨h1, h2⟩ := h
  constructor
  · rw [Bool.not_eq_true'] at h1
    intro he
    rw [he] at h1
    exact absurd h1 (by decide)
  · exact List.all_eq_true.mp h2

theorem pyIsDigit_eq_false_of_mem_hyphen {cs : PyStr} (h : '-' ∈ cs) :
    pyIsDigit cs = false := by
  cases hd : pyIsDigit cs with
  | false => rfl
  | true =>
    obtain ⟨-, hall⟩ := pyIsDigit_all hd
    exact absurd (hall _ h) (by decide)

theorem pyStrip_of_digits {cs : PyStr} (h : ∀ c ∈ cs, c.isDigit = true) :
    pyStrip cs = cs := by
  have hd : ∀ l : PyStr, (∀ c ∈ l, c.isDigit = true) → l.dropWhile Char.isWhitespace = l := by
    intro l hl
    cases l with
    | nil => rfl
    | cons a t =>
      rw [List.dropWhile_cons, if_neg (by simp [digit_not_ws (hl a (List.mem_cons_self a t))])]
  unfold pyStrip
  rw [hd cs h, hd cs.reverse (fun c hc => h c (List.mem_reverse.mp hc)), List.reverse_reverse]

theorem pyInt_of_digits {cs : PyStr} (h : pyIsDigit cs = true) :
    pyInt cs = some (Int.ofNat (digitsToNat cs)) := by
  obtain ⟨hne, hall⟩ := pyIsDigit_all h
  unfold pyInt
  rw [pyStrip_of_digits hall]
  cases cs with
  | nil => exact absurd rfl hne
  | cons c rest =>
    have hc : c.isDigit = true := hall c (List.mem_cons_self c rest)
    simp only [pyIntAux]
    rw [if_neg (digit_ne_plus hc), if_neg (digit_ne_hyphen hc)]
    unfold digitsToNatOpt
    rw [if_pos h]
    rfl

theorem pyInt_nonneg {cs : PyStr} (hn : '-' ∉ cs) {z : Int} (h : pyInt cs = some z) :
    0 ≤ z := by
  unfold pyInt at h
  cases ht : pyStrip cs with
  | nil => rw [ht] at h; exact absurd h (by simp [pyIntAux])
  | cons c rest =>
    rw [ht] at h
    have hcne : c ≠ '-' := by
      intro he
      exact hn (mem_pyStrip (l := cs) (by rw [ht, ← he]; exact List.mem_cons_self c rest))
    simp only [pyIntAux] at h
    by_cases hplus : c = '+'
    · rw [if_pos hplus] at h
      cases hd : digitsToNatOpt rest with
      | none => rw [hd] at h; exact absurd h (by simp)
      | some n =>
        rw [hd] at h
        simp at h
        omega
    · rw [if_neg hplus, if_neg hcne] at h
      cases hd : digitsToNatOpt (c :: rest) with
      | none => rw [hd] at h; exact absurd h (by simp)
      | some n =>
        rw [hd] at h
        simp at h
        omega

/-! ## Decomposition of the `-(\d+)$` suffix and `split('-')` -/

theorem pySplit_of_not_mem {sep : Char} {ys : PyStr} (h : sep ∉ ys) :
    pySplit sep ys = [ys] := by
  induction ys with
  | nil => rfl
  | cons c rest ih =>
    have hc : ¬ c = sep := fun he => h (by rw [he]; exact List.mem_cons_self _ _)
    simp only [pySplit]
    rw [if_neg hc, ih (fun hm => h (List.mem_cons_of_mem _ hm))]

theorem pySplit_append {sep : Char} (ys : PyStr) (hys : sep ∉ ys) :
    ∀ xs : PyStr, ∃ f fs, pySplit sep (xs ++ sep :: ys) = f :: (fs ++ [ys]) := by
  intro xs
  induction xs with
  | nil =>
    refine ⟨[], [], ?_⟩
    rw [List.nil_append]
    have hstep : pySplit sep (sep :: ys) = [] :: pySplit sep ys := by
      simp [pySplit]
    rw [hstep, pySplit_of_not_mem hys]
    rfl
  | cons x xs ih =>
    obtain ⟨f, fs, hf⟩ := ih
    rw [List.cons_append]
    by_cases hx : x = sep
    · refine ⟨[], f :: fs, ?_⟩
      have hstep : pySplit sep (x :: (xs ++ sep :: ys)) = [] :: pySplit sep (xs ++ sep :: ys) := by
        simp [pySplit, hx]
      rw [hstep, hf]
      rfl
    · refine ⟨x :: f, fs, ?_⟩
      have hstep : pySplit sep (x :: (xs ++ sep :: ys)) =
          match pySplit sep (xs ++ sep :: ys) with
          | h :: t => (x :: h) :: t
          | [] => [[x]] := by
        simp [pySplit, hx]
      rw [hstep, hf]

theorem hyphenDigitSuffix_some {cs : PyStr} {n : Nat} (h : hyphenDigitSuffix cs = some n) :
    ∃ tail rds : PyStr, cs = tail.reverse ++ '-' :: rds.reverse ∧ rds ≠ [] ∧
      (∀ c ∈ rds, c.isDigit = true) ∧ n = digitsToNat rds.reverse := by
  unfold hyphenDigitSuffix at h
  by_cases hcond : cs.reverse.takeWhile Char.isDigit ≠ [] ∧
      (cs.reverse.dropWhile Char.isDigit).head? = some '-'
  · obtain ⟨h1, h2⟩ := hcond
    rw [if_pos ⟨h1, h2⟩] at h
    cases hrest : cs.reverse.dropWhile Char.isDigit with
    | nil => rw [hrest] at h2; exact absurd h2 (by simp)
    | cons d t =>
      rw [hrest] at h2
      have hd : d = '-' := by simpa using h2
      refine ⟨t, cs.reverse.takeWhile Char.isDigit, ?_, h1,
        fun c hc => List.mem_takeWhile_imp hc, by simpa using h.symm⟩
      have hdecomp : cs.reverse = cs.reverse.takeWhile Char.isDigit ++ d :: t := by
        rw [← hrest]
        exact (List.takeWhile_append_dropWhile _ _).symm
      subst hd
      calc cs = cs.reverse.reverse := (List.reverse_reverse cs).symm
        _ = (cs.reverse.takeWhile Char.isDigit ++ '-' :: t).reverse := by rw [← hdecomp]
        _ = t.reverse ++ '-' :: (cs.reverse.takeWhile Char.isDigit).reverse := by
              simp [List.reverse_append]
  · rw [if_neg hcond] at h
    exact absurd h (by simp)

theorem hyphenDigitSuffix_eq_none_of_not_mem {cs : PyStr} (h : '-' ∉ cs) :
    hyphenDigitSuffix cs = none := by
  cases hs : hyphenDigitSuffix cs with
  | none => rfl
  | some n =>
    obtain ⟨tail, rds, hcs, -, -, -⟩ := hyphenDigitSuffix_some hs
    exact absurd (show '-' ∈ cs by rw [hcs]; simp) h

theorem findSome_digit_of_suffix {cs : PyStr} {n : Nat} (h : hyphenDigitSuffix cs = some n) :
    ((pySplit '-' cs).reverse.findSome?
      (fun part => if pyIsDigit part then pyInt part else none)) ≠ none := by
  obtain ⟨tail, rds, hcs, hne, hdig, -⟩ := hyphenDigitSuffix_some h
  have hnmem : '-' ∉ rds.reverse := by
    intro hm
    exact absurd (hdig _ (List.mem_reverse.mp hm)) (by decide)
  obtain ⟨f, fs, hsplit⟩ := pySplit_append rds.reverse hnmem tail.reverse
  have hdigall : pyIsDigit rds.reverse = true := by
    unfold pyIsDigit
    rw [Bool.and_eq_true]
    constructor
    · simp [List.isEmpty_iff, hne]
    · rw [List.all_eq_true]
      intro c hc
      exact hdig c (List.mem_reverse.mp hc)
  rw [hcs, hsplit]
  intro hnone
  rw [List.findSome?_eq_none_iff] at hnone
  have hmem : rds.reverse ∈ (f :: (fs ++ [rds.reverse])).reverse := by simp
  have hval := hnone _ hmem
  rw [if_pos hdigall, pyInt_of_digits hdigall] at hval
  exact absurd hval (by simp)

/-! ## Sign invariants of the parsed mapping -/

namespace GPUScheduler

theorem lineEntry_eq_some_iff {l : PyStr} {k : Int} {v : Entry} :
    lineEntry l = some (k, v) ↔
      ¬ (pyStrip l = [] ∨ (pyStrip l).contains '=' = false) ∧
      pyInt (pyStrip (pySplitOnce '=' (pyStrip l)).1) = some k ∧
      (pySplitOnce '=' (pyStrip l)).2.contains ':' = true ∧
      v = (pyStrip (pySplitOnce ':' (pySplitOnce '=' (pyStrip l)).2).1,
           processDevices (pySplitOnce ':' (pySplitOnce '=' (pyStrip l)).2).2) := by
  unfold lineEntry
  by_cases hskip : pyStrip l = [] ∨ (pyStrip l).contains '=' = false
  · rw [if_pos hskip]
    constructor
    · intro h
      exact absurd h (by simp)
    · rintro ⟨hns, -⟩
      exact absurd hskip hns
  · rw [if_neg hskip]
    cases hidx : pyInt (pyStrip (pySplitOnce '=' (pyStrip l)).1) with
    | none =>
      constructor
      · intro h
        exact absurd h (by simp)
      · rintro ⟨-, hik, -⟩
        exact absurd hik (by simp)
    | some i =>
      cases hcv : (pySplitOnce '=' (pyStrip l)).2.contains ':' with
      | false =>
        constructor
        · intro h
          exact absurd h (by simp)
        · rintro ⟨-, -, hcv', -⟩
          exact absurd hcv' (by decide)
      | true =>
        show some (i, (pyStrip (pySplitOnce ':' (pySplitOnce '=' (pyStrip l)).2).1,
              processDevices (pySplitOnce ':' (pySplitOnce '=' (pyStrip l)).2).2)) =
            some (k, v) ↔ _
        rw [Option.some.injEq, Prod.mk.injEq]
        constructor
        · rintro ⟨hik, hvv⟩
          exact ⟨hskip, by rw [hik], rfl, hvv.symm⟩
        · rintro ⟨-, hik, -, hvv⟩
          exact ⟨Option.some.inj hik, hvv.symm⟩

theorem lineEntry_nonneg {l : PyStr} (hl : '-' ∉ l) {k : Int} {v : Entry}
    (h : lineEntry l = some (k, v)) : 0 ≤ k ∧ ∀ d ∈ v.2, 0 ≤ d := by
  rw [lineEntry_eq_some_iff] at h
  obtain ⟨-, hidx, -, hv⟩ := h
  constructor
  · exact pyInt_nonneg
      (fun hm => hl (mem_pyStrip (mem_pySplitOnce_fst (mem_pyStrip hm)))) hidx
  · intro d hd
    rw [hv] at hd
    unfold processDevices at hd
    by_cases hemp : pyStrip (pySplitOnce ':' (pySplitOnce '=' (pyStrip l)).2).2 = []
    · rw [if_pos hemp] at hd
      simp at hd
    · rw [if_neg hemp] at hd
      obtain ⟨tok, htok, hde⟩ := List.mem_filterMap.mp hd
      refine pyInt_nonneg ?_ hde
      intro hm
      exact hl (mem_pyStrip (mem_pySplitOnce_snd (mem_pySplitOnce_snd
        (mem_pyStrip (mem_pySplit htok (mem_pyStrip hm))))))

theorem parseLines_nonneg : ∀ (lines : List PyStr) (m : List (Int × Entry)),
    (∀ l ∈ lines, '-' ∉ l) →
    (∀ p ∈ m, 0 ≤ p.1 ∧ ∀ d ∈ p.2.2, 0 ≤ d) →
    ∀ p ∈ parseLines lines m, 0 ≤ p.1 ∧ ∀ d ∈ p.2.2, 0 ≤ d := by
  intro lines
  induction lines with
  | nil => intro m _ hm; exact hm
  | cons l rest ih =>
    intro m hlines hm
    cases hab : lineAborts l with
    | true =>
      rw [parseLines_cons_abort _ _ _ hab]
      exact hm
    | false =>
      rw [parseLines_cons_no_abort _ _ _ hab]
      apply ih _ (fun y hy => hlines y (List.mem_cons_of_mem _ hy))
      intro p hp
      unfold lineUpdate at hp
      cases hle : lineEntry l with
      | none => rw [hle] at hp; exact hm p hp
      | some kv =>
        obtain ⟨k0, v0⟩ := kv
        rw [hle] at hp
        rcases mem_insertEntry hp with hpm | hpe
        · exact hm p hpm
        · obtain ⟨hk, hd⟩ := lineEntry_nonneg (hlines l (List.mem_cons_self l rest)) hle
          rw [hpe]
          exact ⟨hk, hd⟩

end GPUScheduler

/-- Claim C2, counterexample.  The claimed invariant — every `podIndex` key
and every `deviceList` element non-negative — fails: Python `int(...)`
accepts a leading minus sign, so the annotation `"-1=n:-2"` produces the
entry `-1 ↦ (n, [-2])`. -/
theorem claim_C2_counterexample :
    ¬ (∀ (annotation_value : PyStr) (k : Int) (e : GPUScheduler.Entry),
        GPUScheduler.lookupEntry (GPUScheduler.parse_gpu_mapping annotation_value) k = some e →
        0 ≤ k ∧ ∀ d ∈ e.2, 0 ≤ d) := by
  intro h
  have hc := h ("-1=n:-2").data (-1) ("n".data, [-2]) (by decide)
  exact absurd hc.1 (by decide)

/-- Claim C2, amended: keys and device-list elements are (unbounded)
integers that may be negative when the annotation carries `'-'` signs; for
every annotation text containing no `'-'` character, every key and every
`deviceList` element of the returned mapping is non-negative. -/
theorem claim_C2_amended : ∀ annotation_value : PyStr, '-' ∉ annotation_value →
    ∀ (k : Int) (e : GPUScheduler.Entry),
      GPUScheduler.lookupEntry (GPUScheduler.parse_gpu_mapping annotation_value) k = some e →
      0 ≤ k ∧ ∀ d ∈ e.2, 0 ≤ d := by
  intro ann hann k e hlook
  have hmem := GPUScheduler.lookupEntry_mem hlook
  unfold GPUScheduler.parse_gpu_mapping at hmem
  by_cases hemp : ann = []
  · rw [if_pos hemp] at hmem
    simp at hmem
  · rw [if_neg hemp] at hmem
    have hres := GPUScheduler.parseLines_nonneg (pySplit '\n' (pyStrip ann)) []
      (fun l hl hm => hann (mem_pyStrip (mem_pySplit hl hm)))
      (by simp) (k, e) hmem
    simpa using hres

/-- Witness for the amended claim C2 at a concrete input: the entry parsed
from `"0=nodeA:1"` has non-negative key and devices. -/
theorem claim_C2_witness : (0 : Int) ≤ 0 ∧ ∀ d ∈ [(1 : Int)], 0 ≤ d :=
  claim_C2_amended ("0=nodeA:1").data (by decide) 0 ("nodeA".data, [1]) (by decide)

/-- Claim C6: the resolver heuristic.  `get_pod_index_from_name` behaves
exactly as the three-step description (hyphen-token scan from the end, else
whole-name numeric, else unresolved) — the source's extra regex consultation
is dead code — and the three concrete examples of the spec hold. -/
theorem claim_C6 :
    (∀ pod_name : PyStr,
        GPUScheduler.get_pod_index_from_name pod_name = GPUScheduler.resolveSpec pod_name) ∧
    GPUScheduler.get_pod_index_from_name ("gpu-scheduler-check-3").data = some 3 ∧
    GPUScheduler.get_pod_index_from_name ("standalone").data = none ∧
    GPUScheduler.get_pod_index_from_name ("7").data = some 7 := by
  refine ⟨?_, by decide, by decide, by decide⟩
  intro pod_name
  unfold GPUScheduler.get_pod_index_from_name GPUScheduler.resolveSpec
  cases hcont : pod_name.contains '-' with
  | false =>
    have hnm : '-' ∉ pod_name := by
      intro hm
      have h2 : List.elem '-' pod_name = true := List.elem_iff.mpr hm
      have h3 : List.elem '-' pod_name = false := hcont
      rw [h2] at h3
      exact absurd h3 (by decide)
    simp [hyphenDigitSuffix_eq_none_of_not_mem hnm]
  | true =>
    cases hfind : (pySplit '-' pod_name).reverse.findSome?
        (fun part => if pyIsDigit part then pyInt part else none) with
    | some i => simp [hfind]
    | none =>
      have hnone : hyphenDigitSuffix pod_name = none := by
        cases hs : hyphenDigitSuffix pod_name with
        | none => rfl
        | some n => exact absurd hfind (findSome_digit_of_suffix hs)
      have hmem : '-' ∈ pod_name := List.elem_iff.mp hcont
      simp [hfind, hnone, pyIsDigit_eq_false_of_mem_hyphen hmem]

namespace GPUScheduler

theorem nodeReadyCheck_iff (node : Node) :
    nodeReadyCheck node = true ↔
      ∃ conds, node.conditions = some conds ∧
        ∃ c ∈ conds, c.ctype = ("Ready").data ∧ c.status = ("True").data := by
  unfold nodeReadyCheck
  cases hc : node.conditions with
  | none =>
    constructor
    · intro h
      exact absurd h (by simp)
    · rintro ⟨conds, hconds, -⟩
      exact absurd hconds (by simp)
  | some conds =>
    cases conds with
    | nil =>
      constructor
      · intro h
        exact absurd h (by simp)
      · rintro ⟨conds', hconds', c, hcm, -⟩
        have : conds' = [] := (Option.some.inj hconds').symm
        subst this
        simp at hcm
    | cons c0 cs =>
      show ((c0 :: cs).any
          (fun c => c.ctype == ("Ready").data && c.status == ("True").data)) = true ↔ _
      rw [List.any_eq_true]
      constructor
      · rintro ⟨c, hcm, hcp⟩
        rw [Bool.and_eq_true] at hcp
        exact ⟨c0 :: cs, rfl, c, hcm, by simpa using hcp.1, by simpa using hcp.2⟩
      · rintro ⟨conds', hconds', c, hcm, hct, hcs⟩
        have hceq : conds' = c0 :: cs := (Option.some.inj hconds').symm
        subst hceq
        refine ⟨c, hcm, ?_⟩
        rw [Bool.and_eq_true]
        exact ⟨by simpa using hct, by simpa using hcs⟩

theorem findNodeReady_iff : ∀ (nodes : List Node) (node_name : PyStr),
    (nodes.map Node.name).Nodup →
    (findNodeReady nodes node_name = true ↔
      ∃ n ∈ nodes, n.name = node_name ∧ nodeReadyCheck n = true) := by
  intro nodes
  induction nodes with
  | nil =>
    intro node_name _
    simp [findNodeReady]
  | cons node rest ih =>
    intro node_name hnodup
    rw [List.map_cons, List.nodup_cons] at hnodup
    obtain ⟨hnot, hrest⟩ := hnodup
    unfold findNodeReady
    by_cases heq : (node.name == node_name) = true
    · rw [if_pos heq]
      have hname : node.name = node_name := by simpa using heq
      constructor
      · intro h
        exact ⟨node, List.mem_cons_self _ _, hname, h⟩
      · rintro ⟨n, hn, hnname, hready⟩
        rcases List.mem_cons.mp hn with rfl | hn'
        · exact hready
        · exfalso
          apply hnot
          rw [List.mem_map]
          exact ⟨n, hn', by rw [hnname, hname]⟩
    · rw [if_neg heq]
      have hname : node.name ≠ node_name := by simpa using heq
      rw [ih node_name hrest]
      constructor
      · rintro ⟨n, hn, hx⟩
        exact ⟨n, List.mem_cons_of_mem _ hn, hx⟩
      · rintro ⟨n, hn, hnname, hx⟩
        rcases List.mem_cons.mp hn with rfl | hn'
        · exact absurd hnname hname
        · exact ⟨n, hn', hnname, hx⟩

end GPUScheduler

/-- Claim C4: `isReady` (`validate_node_exists`) returns `true` iff a node
of the given name exists (node names in the control plane's node list are
unique) and carries a condition of type `Ready` with status `True`; node
absent, conditions absent or empty, no `Ready` condition, or a non-`True`
status all yield `false`, and a failed control-plane query is caught and
reported as `false` rather than propagated. -/
theorem claim_C4 :
    (∀ (nodes : List GPUScheduler.Node) (node_name : PyStr),
        (nodes.map GPUScheduler.Node.name).Nodup →
        (GPUScheduler.validate_node_exists (Except.ok nodes) node_name = true ↔
          ∃ n ∈ nodes, n.name = node_name ∧
            ∃ conds, n.conditions = some conds ∧
              ∃ c ∈ conds, c.ctype = ("Ready").data ∧ c.status = ("True").data)) ∧
    (∀ (e : GPUScheduler.ApiException) (node_name : PyStr),
        GPUScheduler.validate_node_exists (Except.error e) node_name = false) := by
  constructor
  · intro nodes node_name hnodup
    show GPUScheduler.findNodeReady nodes node_name = true ↔ _
    rw [GPUScheduler.findNodeReady_iff nodes node_name hnodup]
    constructor
    · rintro ⟨n, hn, hname, hready⟩
      exact ⟨n, hn, hname, (GPUScheduler.nodeReadyCheck_iff n).mp hready⟩
    · rintro ⟨n, hn, hname, hx⟩
      exact ⟨n, hn, hname, (GPUScheduler.nodeReadyCheck_iff n).mpr hx⟩
  · intro e node_name
    rfl

/-- Witness for claim C4 at a concrete input: a singleton node list where
`nodeC` carries `Ready=True` makes `validate_node_exists` answer `true`. -/
theorem claim_C4_witness :
    GPUScheduler.validate_node_exists (Except.ok [GPUScheduler.nodeCReady]) ("nodeC").data =
      true :=
  (claim_C4.1 [GPUScheduler.nodeCReady] ("nodeC").data (by simp)).mpr
    ⟨GPUScheduler.nodeCReady, List.mem_cons_self _ _, rfl,
     [⟨("Ready").data, ("True").data⟩], rfl,
     ⟨("Ready").data, ("True").data⟩, List.mem_cons_self _ _, rfl, rfl⟩

/-- Claim C10, counterexample.  The claim asserts that for every pod name
not ending in a hyphen-digit suffix the sidecar resolver returns `0` and
the scheduler resolver signals unresolved; the name `"7"` has no such
suffix, yet the scheduler resolves it to `7` (whole-name-numeric step)
while the sidecar adopts `0`. -/
theorem claim_C10_counterexample :
    ¬ (∀ pod_name : PyStr, hyphenDigitSuffix pod_name = none →
        CheckApp.get_pod_index_from_name pod_name = 0 ∧
        GPUScheduler.get_pod_index_from_name pod_name = none) := by
  intro h
  have hc := h ("7").data (by decide)
  exact absurd hc.2 (by decide)

/-- Claim C10, amended: for every pod name that does not end in a hyphen
followed by digits, the sidecar's resolver returns `0` (after logging a
warning); and whenever the scheduler's resolver signals unresolved, the
sidecar's returns `0` — though the scheduler can still resolve some names
without such a suffix (e.g. a purely numeric name, see the
counterexample). -/
theorem claim_C10_amended : ∀ pod_name : PyStr,
    (hyphenDigitSuffix pod_name = none → CheckApp.get_pod_index_from_name pod_name = 0) ∧
    (GPUScheduler.get_pod_index_from_name pod_name = none →
      CheckApp.get_pod_index_from_name pod_name = 0) := by
  intro pod_name
  have hbase : hyphenDigitSuffix pod_name = none →
      CheckApp.get_pod_index_from_name pod_name = 0 := by
    intro h
    unfold CheckApp.get_pod_index_from_name
    rw [h]
  refine ⟨hbase, ?_⟩
  intro h
  apply hbase
  cases hs : hyphenDigitSuffix pod_name with
  | none => rfl
  | some n =>
    exfalso
    obtain ⟨tail, rds, hcs, hne, hdig, -⟩ := hyphenDigitSuffix_some hs
    have hmem : '-' ∈ pod_name := by rw [hcs]; simp
    have hcont : pod_name.contains '-' = true := List.elem_iff.mpr hmem
    cases hfind : (pySplit '-' pod_name).reverse.findSome?
        (fun part => if pyIsDigit part then pyInt part else none) with
    | some i =>
      unfold GPUScheduler.get_pod_index_from_name at h
      rw [hcont] at h
      simp [hfind] at h
    | none => exact findSome_digit_of_suffix hs hfind

/-- Witness for the amended claim C10 at concrete inputs: `"standalone"`
has no hyphen-digit suffix and `"plainname"` is unresolved for the
scheduler; for both the sidecar resolver returns `0`. -/
theorem claim_C10_witness :
    CheckApp.get_pod_index_from_name ("standalone").data = 0 ∧
    CheckApp.get_pod_index_from_name ("plainname").data = 0 :=
  ⟨(claim_C10_amended ("standalone").data).1 (by decide),
   (claim_C10_amended ("plainname").data).2 (by decide)⟩

/-- Whether a loop action is a sleep of a duration other than the fixed
5 seconds. -/
def sleepIsFixed : GPUScheduler.LoopAction → Bool
  | .sleepSeconds n => n == 5
  | _ => true

/-- Claim C9: in the watch loop, a stream timeout leads to immediate
resubscription — no error log, no sleep between sessions; every other
stream fault is logged as an error and followed by the fixed five-second
delay (every sleep in any run is exactly 5 — no exponential growth, no
jitter); and the loop never terminates: every session in a trace is
followed by a new subscription. -/
theorem claim_C9 :
    GPUScheduler.afterSession GPUScheduler.SessionResult.timeout = [] ∧
    (∀ msg, GPUScheduler.afterSession (GPUScheduler.SessionResult.fault msg) =
      [GPUScheduler.LoopAction.logError msg,
       GPUScheduler.LoopAction.logInfo GPUScheduler.restartMsg,
       GPUScheduler.LoopAction.sleepSeconds 5]) ∧
    (∀ results, (GPUScheduler.watch_unscheduled_pods results).count
        GPUScheduler.LoopAction.subscribe = results.length) ∧
    (∀ results, (GPUScheduler.watch_unscheduled_pods results).all sleepIsFixed = true) := by
  refine ⟨rfl, fun msg => rfl, ?_, ?_⟩
  · intro results
    induction results with
    | nil => rfl
    | cons r rest ih =>
      cases r with
      | timeout =>
        simp [GPUScheduler.watch_unscheduled_pods, GPUScheduler.afterSession,
              List.count_cons, ih]
      | fault msg =>
        simp [GPUScheduler.watch_unscheduled_pods, GPUScheduler.afterSession,
              List.count_cons, List.count_append, ih]
  · intro results
    induction results with
    | nil => rfl
    | cons r rest ih =>
      cases r with
      | timeout =>
        simp_all [GPUScheduler.watch_unscheduled_pods, GPUScheduler.afterSession, sleepIsFixed]
      | fault msg =>
        simp_all [GPUScheduler.watch_unscheduled_pods, GPUScheduler.afterSession, sleepIsFixed]
